import Mathlib

/-!
Verification of the NPU plugin backend core: execution pipeline
(`zero_pipeline.cpp`), plugin graph lifecycle (`plugin_graph.cpp`) and
compiler adapter orchestration (`plugin_compiler_adapter.cpp`), modelled as
a shallow embedding.  Machine addresses and bytes are modelled as `Nat`;
driver handles as `Nat`; fallible driver calls as `Except String`.
-/

namespace NPU

/-- Per-tensor buffer descriptor handed to the pipeline constructor:
base address (`mem`) and byte size (`size`), cf. `TensorData`. -/
structure TensorData where
  mem : Nat
  size : Nat
deriving DecidableEq, Repr

/-- Device instructions recordable into a command list
(cf. `CommandList::append*` calls made by `Pipeline::Pipeline`). -/
inductive Instr where
  | barrier
  | npuTimestamp
  | graphExecute
  | signalEvent (eventIndex : Nat)
deriving DecidableEq, Repr

/-- A command list: the argument bindings captured for its
`appendGraphExecute` (driver argument index paired with the bound
address), the recorded instruction stream, and the sealed flag. -/
structure CommandList where
  bindings : List (Nat × Nat)
  instrs : List Instr
  closed : Bool
deriving DecidableEq, Repr

/-- An event allocated from the pipeline's event pool at a fixed index. -/
structure EventPrim where
  poolIndex : Nat
  signaled : Bool
deriving DecidableEq, Repr

/-- A fence bound to the shared submission queue. -/
structure FencePrim where
  fenceId : Nat
  signaled : Bool
deriving DecidableEq, Repr

/-- The pipeline state: parallel arrays of command lists, events and
fences, the configured synchronization mode and the event pool size
(cf. the `Pipeline` members of `zero_pipeline.cpp`). -/
structure Pipeline where
  command_lists : List CommandList
  events : List EventPrim
  fences : List FencePrim
  sync_output_with_fences : Bool
  event_pool_size : Nat
deriving DecidableEq, Repr

/-- `mapWithIndex f i0 l` maps `f` over `l` passing each element's index,
starting from `i0`; models the C++ `for (size_t i = ...)` loops. -/
def mapWithIndex (f : Nat → α → β) : Nat → List α → List β
  | _, [] => []
  | i, a :: as => f i a :: mapWithIndex f (i + 1) as

/-- The address bound for tensor `td` on command-list index `i` out of
`n`: `static_cast<const unsigned char*>(td->mem) + (i * td->size) / n`. -/
def sliceAddress (n i : Nat) (td : TensorData) : Nat :=
  td.mem + (i * td.size) / n

/-- The argument bindings recorded for command-list index `i`: every
input descriptor bound to its slice of the matching input tensor, then
every output descriptor likewise (the two `setArgumentValue` loops of
`Pipeline::Pipeline`; `inputTensorsData.at(ioIndex)` pairs the
descriptor at position `ioIndex` with the tensor at the same position). -/
def listBindings (inputDescs outputDescs : List Nat)
    (inTd outTd : List TensorData) (n i : Nat) : List (Nat × Nat) :=
  (inputDescs.zip inTd).map (fun p => (p.1, sliceAddress n i p.2)) ++
    (outputDescs.zip outTd).map (fun p => (p.1, sliceAddress n i p.2))

/-- The instruction stream recorded into command-list `i` by the
constructor: optional profiling barrier+timestamp, graph execute,
optional profiling barrier+timestamp, and — unless synchronizing through
fences — a barrier followed by signaling event `i`. -/
def builtInstrs (profiling syncFences : Bool) (i : Nat) : List Instr :=
  (if profiling then [Instr.barrier, Instr.npuTimestamp] else []) ++
    [Instr.graphExecute] ++
    (if profiling then [Instr.barrier, Instr.npuTimestamp] else []) ++
    (if syncFences then [] else [Instr.barrier, Instr.signalEvent i])

/-- `Pipeline::Pipeline`: allocates `n` command lists, `n` events
(indices `0..n-1` of a pool sized `n`, or `1` when `n = 0`), `n` fences,
records bindings and instructions per index and closes every list. -/
def Pipeline.construct (inputDescs outputDescs : List Nat)
    (inTd outTd : List TensorData) (n : Nat)
    (profiling syncFences : Bool) : Pipeline :=
  { command_lists := (List.range n).map (fun i =>
      { bindings := listBindings inputDescs outputDescs inTd outTd n i
        instrs := builtInstrs profiling syncFences i
        closed := true })
    events := (List.range n).map (fun i => { poolIndex := i, signaled := false })
    fences := (List.range n).map (fun i => { fenceId := i, signaled := false })
    sync_output_with_fences := syncFences
    event_pool_size := if n = 0 then 1 else n }

/-- `CommandList::updateMutableCommandList(index, addr)`: patches the
previously-recorded binding of driver argument `index` in place. -/
def CommandList.updateMutableCommandList (cl : CommandList)
    (index addr : Nat) : CommandList :=
  { cl with bindings :=
      cl.bindings.map (fun p => if p.1 = index then (p.1, addr) else p) }

/-- `CommandList::close()`: seals the list. -/
def CommandList.close (cl : CommandList) : CommandList :=
  { cl with closed := true }

/-- `Pipeline::updateCommandList(tensorsData, index)`: for each
command-list index `i`, patches the binding of argument `index` to
`tensorsData.mem + (i * tensorsData.size) / numberOfCommandLists` and
re-closes the list. -/
def Pipeline.updateCommandList (p : Pipeline) (tensorsData : TensorData)
    (index : Nat) : Pipeline :=
  let numberOfCommandLists := p.command_lists.length
  { p with command_lists :=
      mapWithIndex (fun i cl => (cl.updateMutableCommandList index (sliceAddress numberOfCommandLists i tensorsData)).close) 0 p.command_lists }

/-- `Pipeline::reset()`: for each index, resets the fence (fence-sync
mode) or the event (event-sync mode) to its unsignaled state. -/
def Pipeline.reset (p : Pipeline) : Pipeline :=
  if p.sync_output_with_fences then
    { p with fences := p.fences.map (fun f => { f with signaled := false }) }
  else
    { p with events := p.events.map (fun e => { e with signaled := false }) }

/-- Whether some submitted command list of `p` records a signal of event
pool index `j` (the hardware effect of executing the lists). -/
def Pipeline.signalsEvent (p : Pipeline) (j : Nat) : Bool :=
  p.command_lists.any (fun cl => decide (Instr.signalEvent j ∈ cl.instrs))

/-- `Pipeline::push()`: submits every command list in index order; in
fence-sync mode each submission is paired with its fence (which the
queue signals on completion); the device executes the recorded
instructions, signaling every event targeted by a `signalEvent`. -/
def Pipeline.push (p : Pipeline) : Pipeline :=
  { p with
    fences := if p.sync_output_with_fences then
        p.fences.map (fun f => { f with signaled := true })
      else p.fences
    events := p.events.map (fun e =>
      if p.signalsEvent e.poolIndex then { e with signaled := true } else e) }

/-- `Pipeline::pull()`: host-waits per index on the fence (fence-sync
mode) or the event; the wait blocks forever (modelled as `none`) unless
the primitive is signaled. -/
def Pipeline.pull (p : Pipeline) : Option Pipeline :=
  if p.sync_output_with_fences then
    if p.fences.all (fun f => f.signaled) then some p else none
  else
    if p.events.all (fun e => e.signaled) then some p else none

/-- One reuse cycle: `reset(); push(); pull()`. -/
def Pipeline.cycle (p : Pipeline) : Option Pipeline :=
  p.reset.push.pull

/-- `k` consecutive reuse cycles. -/
def Pipeline.cycles : Nat → Pipeline → Option Pipeline
  | 0, p => some p
  | k + 1, p => p.cycle.bind (Pipeline.cycles k)

/-- The binding recorded at position `j` of command list `i` of `p`. -/
def Pipeline.boundArg (p : Pipeline) (i j : Nat) : Option (Nat × Nat) :=
  p.command_lists[i]? |>.bind (fun cl => cl.bindings[j]?)

/-! ### Compiler adapter (`plugin_compiler_adapter.cpp`) -/

/-- One network description returned by the compiler collaborator:
`metadata.name` and the compiled bytes (`compiledNetwork`). -/
structure Segment where
  name : String
  blob : List Nat
deriving DecidableEq, Repr

/-- `starts_with(str, pre)` from `compileWS`:
`str.substr(0, pre.size()) == pre`. -/
def starts_with (str pre : String) : Bool :=
  str.take pre.length == pre

/-- `isInit`: the segment name starts with `"init"`. -/
def isInit (name : String) : Bool :=
  starts_with name "init"

/-- `isMain`: the segment name starts with `"main"`. -/
def isMain (name : String) : Bool :=
  starts_with name "main"

/-- A plugin graph as built by the adapter: whether the level-zero
wrapper (`_zeGraphExt`) is present, the (possibly unrealized) driver
handle, the metadata name and the compiled bytes. -/
structure PluginGraph where
  zeGraphExtPresent : Bool
  handle : Option Nat
  name : String
  blob : List Nat
deriving DecidableEq, Repr

/-- The informational log line emitted when handle realization fails. -/
def handleFailLog : String :=
  "Failed to obtain the level zero graph handle. Inference requests for this model are not allowed. Only exports are available"

/-- Best-effort graph wrapping shared by `compile` and the `compileWS`
v1 loop: when the wrapper is present, try to realize a handle from the
compiled bytes; a failure is swallowed (handle stays null). `realize`
models `ZeGraphExtWrappers::getGraphHandle`. -/
def makeGraph (zeExt : Bool) (realize : List Nat → Except String Nat)
    (seg : Segment) : PluginGraph :=
  { zeGraphExtPresent := zeExt
    handle :=
      if zeExt then
        match realize seg.blob with
        | Except.ok h => some h
        | Except.error _ => none
      else none
    name := seg.name
    blob := seg.blob }

/-- `PluginCompilerAdapter::compile`: delegates to the compiler, then
wraps best-effort; returns the graph together with the informational
log lines produced (never an error). -/
def compile (zeExt : Bool) (realize : List Nat → Except String Nat)
    (networkDesc : Segment) : PluginGraph × List String :=
  (makeGraph zeExt realize networkDesc,
    if zeExt then
      match realize networkDesc.blob with
      | Except.ok _ => []
      | Except.error _ => [handleFailLog]
    else [])

/-- `PluginCompilerAdapter::parse`: handle realization is not guarded —
the failure propagates to the caller. -/
def parse (zeExt : Bool) (realize : List Nat → Except String Nat)
    (network : List Nat) (metaName : String) : Except String PluginGraph :=
  if zeExt then
    match realize network with
    | Except.ok h => Except.ok
        { zeGraphExtPresent := zeExt, handle := some h, name := metaName, blob := network }
    | Except.error e => Except.error e
  else
    Except.ok { zeGraphExtPresent := zeExt, handle := none, name := metaName, blob := network }

/-- The `compileWS` v2 collection loop, with the compiler collaborator
modelled as the stream of segments its successive `compileWS_v2` calls
return (`[]` models a null return ending the loop).  Yields the
collected `initDscrs` and the main description, or the fatal
`OPENVINO_ASSERT` message. -/
def collectWS_v2 : List Segment → Except String (List Segment × Option Segment)
  | [] => Except.ok ([], none)
  | s :: rest =>
    if isInit s.name then
      (collectWS_v2 rest).map (fun c => (s :: c.1, c.2))
    else if isMain s.name then Except.ok ([], some s)
    else Except.error ("Unexpected network name: " ++ s.name)

/-- The `compileWS` v3 collection loop: identical classification and
stop rule; the index counter `i` is passed to each compiler call (and
the model is reset to a pristine clone after each init segment — a
mutation on the C++ side with no observable effect on the returned
segment stream, which the `segs` parameter already models). -/
def collectWS_v3 (i : Nat) : List Segment → Except String (List Segment × Option Segment)
  | [] => Except.ok ([], none)
  | s :: rest =>
    if isInit s.name then
      (collectWS_v3 (i + 1) rest).map (fun c => (s :: c.1, c.2))
    else if isMain s.name then Except.ok ([], some s)
    else Except.error ("Unexpected network name: " ++ s.name)

/-- The tail of `compileWS` for v2/v3: realizes the two handles inside a
single try-block (so a failure on the init bytes leaves both handles
null, and a failure on the main bytes keeps the already-assigned init
handle) and builds the init and main plugin graphs. -/
def finishWS (zeExt : Bool) (realize : List Nat → Except String Nat)
    (init0 m : Segment) : PluginGraph × PluginGraph :=
  let handles : Option Nat × Option Nat :=
    if zeExt then
      match realize init0.blob with
      | Except.error _ => (none, none)
      | Except.ok h1 =>
        match realize m.blob with
        | Except.error _ => (some h1, none)
        | Except.ok h2 => (some h1, some h2)
    else (none, none)
  ({ zeGraphExtPresent := zeExt, handle := handles.1, name := init0.name, blob := init0.blob },
    { zeGraphExtPresent := zeExt, handle := handles.2, name := m.name, blob := m.blob })

/-- `PluginCompilerAdapter::compileWS`.  `Except.ok none` marks the
executions that are undefined behavior in the C++ source: `.back()` on
an empty v1 vector, `initDscrs[0]` on an empty init list, and
dereferencing a null `mainNetworkDescription`. -/
def compileWS (version : Nat) (zeExt : Bool)
    (realize : List Nat → Except String Nat) (segs : List Segment) :
    Except String (Option (List PluginGraph)) :=
  match version with
  | 1 =>
    match segs.getLast? with
    | none => Except.ok none
    | some lastSeg =>
      if isMain lastSeg.name then
        Except.ok (some (segs.map (makeGraph zeExt realize)))
      else Except.error ("Unexpected network name for main:" ++ lastSeg.name)
  | 2 =>
    (collectWS_v2 segs).map (fun c =>
      match c.1.head?, c.2 with
      | some init0, some m =>
        some [(finishWS zeExt realize init0 m).1, (finishWS zeExt realize init0 m).2]
      | _, _ => none)
  | 3 =>
    (collectWS_v3 0 segs).map (fun c =>
      match c.1.head?, c.2 with
      | some init0, some m =>
        some [(finishWS zeExt realize init0 m).1, (finishWS zeExt realize init0 m).2]
      | _, _ => none)
  | _ => Except.error "Invalid SEPARATE_WEIGHTS_VERSION value found within the compileWS call"

/-! ### Plugin graph operations and teardown (`plugin_graph.cpp`) -/

/-- The observable outcome of `PluginGraph::set_argument_value`: either
the distinct adapter-level error thrown when the wrapper is absent, or
a forward of the (possibly null) handle to the driver call
`setGraphArgumentValue`. -/
inductive SetArgOutcome where
  | adapterNotInitialized
  | driverSetArgument (handle : Option Nat) (argi : Nat)
deriving DecidableEq, Repr

/-- `PluginGraph::set_argument_value`: the distinct
`"Zero compiler adapter wasn't initialized"` error is raised exactly
when `_zeGraphExt == nullptr`; otherwise the call forwards `_handle`
(null or not) to the driver. -/
def set_argument_value (g : PluginGraph) (argi : Nat) : SetArgOutcome :=
  if g.zeGraphExtPresent = false then SetArgOutcome.adapterNotInitialized
  else SetArgOutcome.driverSetArgument g.handle argi

/-- `PluginGraph::export_blob`: writes the raw blob bytes to the stream
and returns the number of bytes written (stream I/O failure is an
environmental condition outside this model). -/
def export_blob (g : PluginGraph) : Nat × List Nat :=
  (g.blob.length, g.blob)

/-- Teardown steps of `PluginGraph::~PluginGraph`, in program order. -/
inductive TeardownAction where
  | destroyGraph (h : Nat)
  | clearLastSubmittedEvents
  | releaseCommandQueue
deriving DecidableEq, Repr

/-- The destructor-relevant resources of a plugin graph: the driver
handle, the number of held last-submitted-event slots and the owned
command queue. -/
structure GraphResources where
  handle : Option Nat
  lastSubmittedEvents : Nat
  commandQueue : Option Nat
deriving DecidableEq, Repr

/-- `PluginGraph::~PluginGraph`: if a handle is held, ask the driver to
destroy it and clear the local reference only on reported success; then
clear the event slots if any are held; then release the command queue
if owned.  `driverDestroyOk h` models whether `destroyGraph` returns
`ZE_RESULT_SUCCESS`.  Returns the final resources and the trace of
teardown actions in order. -/
def destructor (driverDestroyOk : Nat → Bool) (g : GraphResources) :
    GraphResources × List TeardownAction :=
  let step1 : GraphResources × List TeardownAction :=
    match g.handle with
    | some h =>
      (if driverDestroyOk h then { g with handle := none } else g,
        [TeardownAction.destroyGraph h])
    | none => (g, [])
  let step2 : GraphResources × List TeardownAction :=
    if step1.1.lastSubmittedEvents ≠ 0 then
      ({ step1.1 with lastSubmittedEvents := 0 },
        step1.2 ++ [TeardownAction.clearLastSubmittedEvents])
    else step1
  if step2.1.commandQueue.isSome then
    ({ step2.1 with commandQueue := none },
      step2.2 ++ [TeardownAction.releaseCommandQueue])
  else step2

/-! ### Split-init blob export framing (`custom_export_split_init`) -/

/-- The bytes produced by `stream << n` for a `uint32_t` value: the
decimal digits of `n`, as ASCII, with no padding or terminator
(formatted insertion, not a fixed-width binary write). -/
def decBytes (n : Nat) : List Nat :=
  (Nat.toDigits 10 (n % 4294967296)).map Char.toNat

/-- A byte stream accumulator standing for the `std::ostream`. -/
def writeU32 (stream : List Nat) (n : Nat) : List Nat :=
  stream ++ decBytes n

/-- `stream.write(ptr, size)` / `stream << rdbuf()`: raw bytes. -/
def writeBytes (stream : List Nat) (bs : List Nat) : List Nat :=
  stream ++ bs

/-- `PluginGraph::custom_export_split_init`: xml size and bytes, bin
size and bytes, main blob size and bytes, init count, the `':'`
delimiter byte (ASCII 58), then each init blob's size and bytes, in
order, all sizes written through `stream << static_cast<uint32_t>`. -/
def custom_export_split_init (xml bin mainBlob : List Nat)
    (initBlobs : List (List Nat)) : List Nat :=
  let s1 := writeBytes (writeU32 [] xml.length) xml
  let s2 := writeBytes (writeU32 s1 bin.length) bin
  let s3 := writeBytes (writeU32 s2 mainBlob.length) mainBlob
  let s4 := writeBytes (writeU32 s3 initBlobs.length) [58]
  initBlobs.foldl (fun st b => writeBytes (writeU32 st b.length) b) s4

/-- The documented layout, written from the amended spec wording: each
size rendered as the decimal ASCII text of the value truncated to
`uint32`, each blob's raw bytes following its size, the init count
followed by the single `':'` delimiter byte and the length-prefixed
init blobs. -/
def splitInitLayout (xml bin mainBlob : List Nat)
    (initBlobs : List (List Nat)) : List Nat :=
  decBytes xml.length ++ xml ++ decBytes bin.length ++ bin ++
    decBytes mainBlob.length ++ mainBlob ++ decBytes initBlobs.length ++ [58] ++
    (initBlobs.map (fun b => decBytes b.length ++ b)).flatten

/-- A concrete export-only artifact: the wrapper is present but handle
realization failed during `compile`. -/
def exportOnlyFailed : PluginGraph :=
  makeGraph true (fun _ => Except.error "driver failure") { name := "main", blob := [1, 2] }

/-- First colliding init-blob list: blobs `"2"` and
`"0000000000" ++ "17"` (12 bytes). -/
def collisionInitsA : List (List Nat) :=
  [[50], [48, 48, 48, 48, 48, 48, 48, 48, 48, 48, 49, 55]]

/-- Second colliding init-blob list: blobs `"120000000000"` (12 bytes)
and `"7"`. -/
def collisionInitsB : List (List Nat) :=
  [[49, 50, 48, 48, 48, 48, 48, 48, 48, 48, 48, 48], [55]]

/-! ## Helper lemmas -/

theorem zip_getElem?_of {α β : Type} (l1 : List α) (l2 : List β) (n : Nat)
    (a : α) (b : β) (h1 : l1[n]? = some a) (h2 : l2[n]? = some b) :
    (l1.zip l2)[n]? = some (a, b) := by
  induction l1 generalizing l2 n with
  | nil => simp at h1
  | cons x xs ih =>
    cases l2 with
    | nil => simp at h2
    | cons y ys =>
      cases n with
      | zero => simp_all
      | succ m =>
        simp only [List.zip_cons_cons, List.getElem?_cons_succ] at h1 h2 ⊢
        exact ih ys m h1 h2

theorem mapWithIndex_getElem? {α β : Type} (f : Nat → α → β) (i0 n : Nat)
    (l : List α) :
    (mapWithIndex f i0 l)[n]? = (l[n]?).map (f (i0 + n)) := by
  induction l generalizing i0 n with
  | nil => simp [mapWithIndex]
  | cons x xs ih =>
    cases n with
    | zero => simp [mapWithIndex]
    | succ m =>
      simp only [mapWithIndex, List.getElem?_cons_succ, ih (i0 + 1) m]
      have : i0 + 1 + m = i0 + (m + 1) := by omega
      rw [this]

theorem foldl_write_append (l : List (List Nat)) (init : List Nat) :
    l.foldl (fun st b => st ++ (decBytes b.length ++ b)) init
      = init ++ (l.map (fun b => decBytes b.length ++ b)).flatten := by
  induction l generalizing init with
  | nil => simp
  | cons x xs ih =>
    rw [List.foldl_cons, ih]
    simp [List.append_assoc]

theorem mapWithIndex_length {α β : Type} (f : Nat → α → β) (i0 : Nat) (l : List α) :
    (mapWithIndex f i0 l).length = l.length := by
  induction l generalizing i0 with
  | nil => rfl
  | cons x xs ih => simp [mapWithIndex, ih]

theorem listBindings_input_getElem? (inputDescs outputDescs : List Nat)
    (inTd outTd : List TensorData) (n i j : Nat) (d : Nat) (td : TensorData)
    (hd : inputDescs[j]? = some d) (htd : inTd[j]? = some td) :
    (listBindings inputDescs outputDescs inTd outTd n i)[j]? = some (d, sliceAddress n i td) := by
  have hj1 : j < inputDescs.length := (List.getElem?_eq_some.mp hd).1
  have hj2 : j < inTd.length := (List.getElem?_eq_some.mp htd).1
  have hzip : (inputDescs.zip inTd)[j]? = some (d, td) :=
    zip_getElem?_of _ _ _ _ _ hd htd
  have hlen : j < ((inputDescs.zip inTd).map
      (fun p => (p.1, sliceAddress n i p.2))).length := by
    simp only [List.length_map, List.length_zip]
    omega
  rw [listBindings, List.getElem?_append, if_pos hlen, List.getElem?_map, hzip]
  rfl

theorem listBindings_output_getElem? (inputDescs outputDescs : List Nat)
    (inTd outTd : List TensorData) (n i j : Nat) (d : Nat) (td : TensorData)
    (hin : inputDescs.length = inTd.length)
    (hd : outputDescs[j]? = some d) (htd : outTd[j]? = some td) :
    (listBindings inputDescs outputDescs inTd outTd n i)[inputDescs.length + j]?
      = some (d, sliceAddress n i td) := by
  have hzip : (outputDescs.zip outTd)[j]? = some (d, td) :=
    zip_getElem?_of _ _ _ _ _ hd htd
  have hA : ((inputDescs.zip inTd).map
      (fun p => (p.1, sliceAddress n i p.2))).length = inputDescs.length := by
    simp [List.length_zip, hin]
  have hge : ((inputDescs.zip inTd).map
      (fun p => (p.1, sliceAddress n i p.2))).length ≤ inputDescs.length + j := by
    omega
  rw [listBindings, List.getElem?_append_right hge, hA]
  have hsub : inputDescs.length + j - inputDescs.length = j := by omega
  rw [hsub, List.getElem?_map, hzip]
  rfl

theorem isMain_not_isInit (name : String) (h : isMain name = true) :
    isInit name = false := by
  simp only [isMain, starts_with] at h
  simp only [isInit, starts_with]
  have h4 : "main".length = 4 := rfl
  have h4b : "init".length = 4 := rfl
  rw [h4] at h
  rw [h4b]
  have he : name.take 4 = "main" := beq_iff_eq.mp h
  rw [he]
  decide

theorem collectWS_v2_stops (pre : List Segment)
    (hpre : ∀ t ∈ pre, isInit t.name = true) (m : Segment)
    (hm : isMain m.name = true) (post : List Segment) :
    collectWS_v2 (pre ++ m :: post) = Except.ok (pre, some m) := by
  induction pre with
  | nil =>
    simp only [List.nil_append, collectWS_v2, isMain_not_isInit m.name hm,
      Bool.false_eq_true, if_false, hm, if_true]
  | cons s rest ih =>
    have hs : isInit s.name = true := hpre s (by simp)
    have hrest : ∀ t ∈ rest, isInit t.name = true := fun t ht => hpre t (by simp [ht])
    simp only [List.cons_append, collectWS_v2, hs, if_true, List.append_eq, ih hrest]
    rfl

theorem collectWS_v2_fatal (pre : List Segment)
    (hpre : ∀ t ∈ pre, isInit t.name = true) (s : Segment)
    (hs1 : isInit s.name = false) (hs2 : isMain s.name = false)
    (post : List Segment) :
    collectWS_v2 (pre ++ s :: post)
      = Except.error ("Unexpected network name: " ++ s.name) := by
  induction pre with
  | nil =>
    simp only [List.nil_append, collectWS_v2, hs1, Bool.false_eq_true, if_false, hs2]
  | cons t rest ih =>
    have ht : isInit t.name = true := hpre t (by simp)
    have hrest : ∀ u ∈ rest, isInit u.name = true := fun u hu => hpre u (by simp [hu])
    simp only [List.cons_append, collectWS_v2, ht, if_true, List.append_eq, ih hrest]
    rfl

theorem collectWS_v3_stops (i : Nat) (pre : List Segment)
    (hpre : ∀ t ∈ pre, isInit t.name = true) (m : Segment)
    (hm : isMain m.name = true) (post : List Segment) :
    collectWS_v3 i (pre ++ m :: post) = Except.ok (pre, some m) := by
  induction pre generalizing i with
  | nil =>
    simp only [List.nil_append, collectWS_v3, isMain_not_isInit m.name hm,
      Bool.false_eq_true, if_false, hm, if_true]
  | cons s rest ih =>
    have hs : isInit s.name = true := hpre s (by simp)
    have hrest : ∀ t ∈ rest, isInit t.name = true := fun t ht => hpre t (by simp [ht])
    simp only [List.cons_append, collectWS_v3, hs, if_true, List.append_eq, ih (i + 1) hrest]
    rfl

theorem collectWS_v3_fatal (i : Nat) (pre : List Segment)
    (hpre : ∀ t ∈ pre, isInit t.name = true) (s : Segment)
    (hs1 : isInit s.name = false) (hs2 : isMain s.name = false)
    (post : List Segment) :
    collectWS_v3 i (pre ++ s :: post)
      = Except.error ("Unexpected network name: " ++ s.name) := by
  induction pre generalizing i with
  | nil =>
    simp only [List.nil_append, collectWS_v3, hs1, Bool.false_eq_true, if_false, hs2]
  | cons t rest ih =>
    have ht : isInit t.name = true := hpre t (by simp)
    have hrest : ∀ u ∈ rest, isInit u.name = true := fun u hu => hpre u (by simp [hu])
    simp only [List.cons_append, collectWS_v3, ht, if_true, List.append_eq, ih (i + 1) hrest]
    rfl

theorem signal_mem_builtInstrs (profiling syncF : Bool) (i j : Nat) :
    Instr.signalEvent j ∈ builtInstrs profiling syncF i ↔ (syncF = false ∧ j = i) := by
  cases syncF <;> cases profiling <;> simp [builtInstrs]

theorem signalsEvent_construct (iD oD : List Nat) (iT oT : List TensorData)
    (n : Nat) (profiling syncFences : Bool) (j : Nat) :
    (Pipeline.construct iD oD iT oT n profiling syncFences).signalsEvent j
      = (!syncFences && decide (j < n)) := by
  cases syncFences with
  | true =>
    simp only [Bool.not_true, Bool.false_and]
    simp only [Pipeline.signalsEvent]
    rw [List.any_eq_false]
    intro cl hcl
    simp only [Pipeline.construct, List.mem_map, List.mem_range] at hcl
    obtain ⟨idx, hidx, rfl⟩ := hcl
    intro hdec
    exact absurd ((signal_mem_builtInstrs profiling true idx j).mp (of_decide_eq_true hdec)).1
      (by simp)
  | false =>
    simp only [Bool.not_false, Bool.true_and]
    by_cases hj : j < n
    · rw [decide_eq_true hj]
      simp only [Pipeline.signalsEvent]
      rw [List.any_eq_true]
      refine ⟨{ bindings := listBindings iD oD iT oT n j
                instrs := builtInstrs profiling false j
                closed := true }, ?_, ?_⟩
      · simp only [Pipeline.construct, List.mem_map, List.mem_range]
        exact ⟨j, hj, rfl⟩
      · exact decide_eq_true ((signal_mem_builtInstrs profiling false j j).mpr ⟨rfl, rfl⟩)
    · rw [decide_eq_false hj]
      simp only [Pipeline.signalsEvent]
      rw [List.any_eq_false]
      intro cl hcl
      simp only [Pipeline.construct, List.mem_map, List.mem_range] at hcl
      obtain ⟨idx, hidx, rfl⟩ := hcl
      intro hdec
      obtain ⟨-, rfl⟩ := (signal_mem_builtInstrs profiling false idx j).mp (of_decide_eq_true hdec)
      exact hj hidx

theorem reset_construct (iD oD : List Nat) (iT oT : List TensorData)
    (n : Nat) (profiling syncFences : Bool) :
    (Pipeline.construct iD oD iT oT n profiling syncFences).reset
      = Pipeline.construct iD oD iT oT n profiling syncFences := by
  cases syncFences <;>
    simp [Pipeline.reset, Pipeline.construct, List.map_map, Function.comp_def]

theorem push_construct (iD oD : List Nat) (iT oT : List TensorData)
    (n : Nat) (profiling syncFences : Bool) :
    (Pipeline.construct iD oD iT oT n profiling syncFences).push
      = { Pipeline.construct iD oD iT oT n profiling syncFences with
          events := (List.range n).map (fun idx => ⟨idx, !syncFences⟩)
          fences := (List.range n).map (fun idx => ⟨idx, syncFences⟩) } := by
  have hsig := signalsEvent_construct iD oD iT oT n profiling syncFences
  have hev : (Pipeline.construct iD oD iT oT n profiling syncFences).events.map
      (fun e => if (Pipeline.construct iD oD iT oT n profiling syncFences).signalsEvent e.poolIndex
        then { e with signaled := true } else e)
      = (List.range n).map (fun idx => (⟨idx, !syncFences⟩ : EventPrim)) := by
    rw [show (Pipeline.construct iD oD iT oT n profiling syncFences).events
        = (List.range n).map (fun i => ⟨i, false⟩) from rfl, List.map_map]
    refine List.map_congr_left ?_
    intro idx hidx
    have hlt : idx < n := List.mem_range.mp hidx
    simp only [Function.comp_apply, hsig, decide_eq_true hlt, Bool.and_true]
    cases syncFences <;> rfl
  simp only [Pipeline.push, hev]
  cases syncFences <;>
    simp [Pipeline.construct, List.map_map, Function.comp_def]

theorem reset_push_construct (iD oD : List Nat) (iT oT : List TensorData)
    (n : Nat) (profiling syncFences : Bool) :
    ((Pipeline.construct iD oD iT oT n profiling syncFences).push).reset
      = Pipeline.construct iD oD iT oT n profiling syncFences := by
  rw [push_construct]
  cases syncFences <;>
    simp [Pipeline.reset, Pipeline.construct, List.map_map, Function.comp_def]

theorem pull_push_construct (iD oD : List Nat) (iT oT : List TensorData)
    (n : Nat) (profiling syncFences : Bool) :
    ((Pipeline.construct iD oD iT oT n profiling syncFences).push).pull
      = some ((Pipeline.construct iD oD iT oT n profiling syncFences).push) := by
  rw [push_construct]
  cases syncFences <;>
    simp [Pipeline.pull, Pipeline.construct, List.all_eq_true, List.mem_map,
      List.mem_range]

theorem cycle_construct (iD oD : List Nat) (iT oT : List TensorData)
    (n : Nat) (profiling syncFences : Bool) :
    (Pipeline.construct iD oD iT oT n profiling syncFences).cycle
      = some ((Pipeline.construct iD oD iT oT n profiling syncFences).push) := by
  unfold Pipeline.cycle
  rw [reset_construct, pull_push_construct]

theorem cycle_push_construct (iD oD : List Nat) (iT oT : List TensorData)
    (n : Nat) (profiling syncFences : Bool) :
    ((Pipeline.construct iD oD iT oT n profiling syncFences).push).cycle
      = some ((Pipeline.construct iD oD iT oT n profiling syncFences).push) := by
  unfold Pipeline.cycle
  rw [reset_push_construct, pull_push_construct]

theorem cycles_fix (q : Pipeline) (h : q.cycle = some q) (k : Nat) :
    q.cycles k = some q := by
  induction k with
  | zero => rfl
  | succ m ih => simp [Pipeline.cycles, h, ih]

/-! ## Claim theorems -/

/-- C4: a failure to realize the device graph handle from compiled
bytes propagates to the caller exactly in `parse`; in `compile` (and
in the `compileWS` wrapping paths `makeGraph` and `finishWS`) the same
failure is caught, logged informationally, and the artifact is still
returned in export-only state (null handle) with no error raised. -/
theorem handle_realization_failure_policy
    (realize : List Nat → Except String Nat) (seg : Segment)
    (metaName : String) (e : String)
    (hf : realize seg.blob = Except.error e) :
    parse true realize seg.blob metaName = Except.error e
      ∧ compile true realize seg
          = ({ zeGraphExtPresent := true, handle := none, name := seg.name, blob := seg.blob },
              [handleFailLog])
      ∧ (∀ network mn h, realize network = Except.ok h →
          parse true realize network mn
            = Except.ok { zeGraphExtPresent := true, handle := some h, name := mn, blob := network })
      ∧ (makeGraph true realize seg).handle = none
      ∧ (∀ m, (finishWS true realize seg m).1.handle = none
          ∧ (finishWS true realize seg m).2.handle = none) := by
  refine ⟨?_, ?_, ?_, ?_, ?_⟩
  · simp [parse, hf]
  · simp [compile, makeGraph, hf]
  · intro network mn h hok
    simp [parse, hok]
  · simp [makeGraph, hf]
  · intro m
    simp [finishWS, hf]

/-- C4 witness: a concrete always-failing realization. -/
theorem handle_realization_failure_policy_witness :
    parse true (fun _ => Except.error "boom") [7] "meta" = Except.error "boom"
      ∧ (compile true (fun _ => Except.error "boom") { name := "main", blob := [7] }).1.handle = none := by
  have h := handle_realization_failure_policy (fun _ => Except.error "boom")
    { name := "main", blob := [7] } "meta" "boom" rfl
  exact ⟨h.1, by rw [h.2.1]⟩

/-- C5 counterexample: an artifact whose handle realization failed
(wrapper present, handle null) does not fail `set_argument_value` with
the distinct adapter error; the null handle is forwarded to the
driver call instead. -/
theorem set_argument_value_not_distinct_counterexample :
    exportOnlyFailed.zeGraphExtPresent = true
      ∧ exportOnlyFailed.handle = none
      ∧ set_argument_value exportOnlyFailed 0
          = SetArgOutcome.driverSetArgument none 0
      ∧ set_argument_value exportOnlyFailed 0 ≠ SetArgOutcome.adapterNotInitialized := by
  decide

/-- C5 amended: for an artifact whose handle realization failed,
`export_blob` still succeeds and returns the blob bytes; the distinct
`adapterNotInitialized` error is raised exactly when the level-zero
wrapper is absent (realization skipped), while a failed realization
with the wrapper present forwards the null handle to the driver call. -/
theorem export_only_artifact_behavior
    (realize : List Nat → Except String Nat) (seg : Segment) (e : String) (argi : Nat)
    (hf : realize seg.blob = Except.error e) :
    export_blob (compile true realize seg).1 = (seg.blob.length, seg.blob)
      ∧ set_argument_value (compile true realize seg).1 argi
          = SetArgOutcome.driverSetArgument none argi
      ∧ (∀ g : PluginGraph,
          (set_argument_value g argi = SetArgOutcome.adapterNotInitialized
            ↔ g.zeGraphExtPresent = false)) := by
  refine ⟨?_, ?_, ?_⟩
  · simp [export_blob, compile, makeGraph]
  · simp [set_argument_value, compile, makeGraph, hf]
  · intro g
    cases hz : g.zeGraphExtPresent <;> simp [set_argument_value, hz]

/-- C5 amended witness. -/
theorem export_only_artifact_behavior_witness :
    export_blob (compile true (fun _ => Except.error "boom") { name := "main", blob := [1, 2] }).1
        = (2, [1, 2])
      ∧ set_argument_value (compile true (fun _ => Except.error "boom") { name := "main", blob := [1, 2] }).1 3
          = SetArgOutcome.driverSetArgument none 3 := by
  have h := export_only_artifact_behavior (fun _ => Except.error "boom")
    { name := "main", blob := [1, 2] } "boom" 3 rfl
  exact ⟨h.1, h.2.1⟩

/-- C9: for a realized graph holding event slots and an owned queue,
teardown first asks the driver to destroy the handle, clears the local
handle reference exactly when the driver reports success (a failed
destroy leaves it unchanged), then releases the event slots and then
the command queue. -/
theorem teardown_policy (driverDestroyOk : Nat → Bool) (g : GraphResources)
    (h q : Nat) (hh : g.handle = some h) (he : g.lastSubmittedEvents ≠ 0)
    (hq : g.commandQueue = some q) :
    (destructor driverDestroyOk g).2
        = [TeardownAction.destroyGraph h, TeardownAction.clearLastSubmittedEvents,
            TeardownAction.releaseCommandQueue]
      ∧ ((destructor driverDestroyOk g).1.handle = none ↔ driverDestroyOk h = true)
      ∧ (driverDestroyOk h = false → (destructor driverDestroyOk g).1.handle = g.handle)
      ∧ (destructor driverDestroyOk g).1.lastSubmittedEvents = 0
      ∧ (destructor driverDestroyOk g).1.commandQueue = none := by
  cases hd : driverDestroyOk h <;>
    simp [destructor, hh, he, hq, hd]

/-- C9 witness: concrete teardown with a failing driver destroy. -/
theorem teardown_policy_witness :
    (destructor (fun _ => false) { handle := some 3, lastSubmittedEvents := 2, commandQueue := some 1 }).1.handle
        = some 3
      ∧ (destructor (fun _ => false) { handle := some 3, lastSubmittedEvents := 2, commandQueue := some 1 }).1.commandQueue
        = none := by
  have h := teardown_policy (fun _ => false)
    { handle := some 3, lastSubmittedEvents := 2, commandQueue := some 1 } 3 1 rfl (by decide) rfl
  exact ⟨by rw [h.2.2.1 rfl], h.2.2.2.2⟩

/-- C6 counterexample: the split-init export framing is not uniquely
decodable — two different init-blob lists (all sizes written through
`stream <<`, i.e. as decimal text, not 4-byte binary fields) produce
the identical byte stream, so no reader of the stream can recover each
init blob's bytes byte-for-byte for arbitrary contents. -/
theorem split_init_export_not_injective :
    custom_export_split_init [] [] [] collisionInitsA
        = custom_export_split_init [] [] [] collisionInitsB
      ∧ collisionInitsA ≠ collisionInitsB := by
  decide

/-- C6 amended: `custom_export_split_init` writes exactly
`[dec(xmlSize)][xmlBytes][dec(binSize)][binBytes][dec(mainBlobSize)]
[mainBlobBytes][dec(initCount)][':'][dec(initBlob0Size)][initBlob0Bytes]…`
where `dec` is the decimal-ASCII rendering of the value truncated to
`uint32` (formatted `stream <<` insertion, not a fixed-width binary
prefix). -/
theorem split_init_export_layout (xml bin mainBlob : List Nat)
    (initBlobs : List (List Nat)) :
    custom_export_split_init xml bin mainBlob initBlobs
      = splitInitLayout xml bin mainBlob initBlobs := by
  simp only [custom_export_split_init, splitInitLayout, writeBytes, writeU32,
    List.append_assoc, List.nil_append, foldl_write_append]

/-- C7: in `compileWS` under split-weights version 1, a returned
segment list whose last segment is not named with the `"main"` prefix
raises the fatal assertion; otherwise every segment is wrapped into an
artifact, in the order the compiler returned the segments. -/
theorem compileWS_v1_policy (zeExt : Bool) (realize : List Nat → Except String Nat)
    (segs : List Segment) (lastSeg : Segment)
    (hlast : segs.getLast? = some lastSeg) :
    (isMain lastSeg.name = false →
        compileWS 1 zeExt realize segs
          = Except.error ("Unexpected network name for main:" ++ lastSeg.name))
      ∧ (isMain lastSeg.name = true →
        ∃ gs, compileWS 1 zeExt realize segs = Except.ok (some gs)
          ∧ gs.length = segs.length
          ∧ ∀ (j : Nat) (s : Segment), segs[j]? = some s
              → gs[j]? = some (makeGraph zeExt realize s)) := by
  constructor
  · intro hm
    simp [compileWS, hlast, hm]
  · intro hm
    refine ⟨segs.map (makeGraph zeExt realize), ?_, by simp, ?_⟩
    · simp [compileWS, hlast, hm]
    · intro j s hj
      simp [List.getElem?_map, hj]

/-- C7 witness: a two-segment `[init, main]` return produces two
artifacts in order, and a malformed return is rejected. -/
theorem compileWS_v1_policy_witness :
    compileWS 1 false (fun _ => Except.error "e")
        [{ name := "init", blob := [1] }, { name := "main", blob := [2] }]
      = Except.ok (some
          [{ zeGraphExtPresent := false, handle := none, name := "init", blob := [1] },
            { zeGraphExtPresent := false, handle := none, name := "main", blob := [2] }]) := by
  have h := compileWS_v1_policy false (fun _ => Except.error "e")
    [{ name := "init", blob := [1] }, { name := "main", blob := [2] }]
    { name := "main", blob := [2] } rfl
  obtain ⟨gs, hgs, hlen, hj⟩ := h.2 (by decide)
  have h0 := hj 0 { name := "init", blob := [1] } rfl
  have h1 := hj 1 { name := "main", blob := [2] } rfl
  rw [hgs]
  cases gs with
  | nil => simp at h0
  | cons a t =>
    cases t with
    | nil => simp at h1
    | cons b t2 =>
      cases t2 with
      | nil =>
        simp only [List.getElem?_cons_zero, List.getElem?_cons_succ,
          Option.some_inj] at h0 h1
        rw [h0, h1]
        rfl
      | cons c t3 => simp at hlen

/-- C1: a pipeline constructed with `numberOfCommandLists = n ≥ 1`
holds exactly `n` command lists, `n` events and `n` fences, and for
every list index `i < n` and every declared input/output argument
descriptor the bound address is the tensor base plus
`(i * size) / n`. -/
theorem pipeline_construction_spec
    (inputDescs outputDescs : List Nat) (inTd outTd : List TensorData)
    (n : Nat) (profiling syncFences : Bool)
    (hn : 1 ≤ n)
    (hin : inputDescs.length = inTd.length)
    (hout : outputDescs.length = outTd.length) :
    (Pipeline.construct inputDescs outputDescs inTd outTd n profiling syncFences).command_lists.length = n
      ∧ (Pipeline.construct inputDescs outputDescs inTd outTd n profiling syncFences).events.length = n
      ∧ (Pipeline.construct inputDescs outputDescs inTd outTd n profiling syncFences).fences.length = n
      ∧ (∀ i, i < n → ∀ j d td, inputDescs[j]? = some d → inTd[j]? = some td →
          (Pipeline.construct inputDescs outputDescs inTd outTd n profiling syncFences).boundArg i j
            = some (d, td.mem + (i * td.size) / n))
      ∧ (∀ i, i < n → ∀ j d td, outputDescs[j]? = some d → outTd[j]? = some td →
          (Pipeline.construct inputDescs outputDescs inTd outTd n profiling syncFences).boundArg i
              (inputDescs.length + j)
            = some (d, td.mem + (i * td.size) / n)) := by
  refine ⟨by simp [Pipeline.construct], by simp [Pipeline.construct],
    by simp [Pipeline.construct], ?_, ?_⟩
  · intro i hi j d td hd htd
    have h1 : (Pipeline.construct inputDescs outputDescs inTd outTd n profiling syncFences).command_lists[i]?
        = some { bindings := listBindings inputDescs outputDescs inTd outTd n i
                 instrs := builtInstrs profiling syncFences i
                 closed := true } := by
      simp [Pipeline.construct, List.getElem?_map, List.getElem?_range hi]
    simpa [Pipeline.boundArg, h1, sliceAddress] using
      listBindings_input_getElem? inputDescs outputDescs inTd outTd n i j d td hd htd
  · intro i hi j d td hd htd
    have h1 : (Pipeline.construct inputDescs outputDescs inTd outTd n profiling syncFences).command_lists[i]?
        = some { bindings := listBindings inputDescs outputDescs inTd outTd n i
                 instrs := builtInstrs profiling syncFences i
                 closed := true } := by
      simp [Pipeline.construct, List.getElem?_map, List.getElem?_range hi]
    simpa [Pipeline.boundArg, h1, sliceAddress] using
      listBindings_output_getElem? inputDescs outputDescs inTd outTd n i j d td hin hd htd

/-- C1 witness: two inputs, one output, four command lists. -/
theorem pipeline_construction_spec_witness :
    (Pipeline.construct [5, 7] [9] [⟨100, 40⟩, ⟨200, 40⟩] [⟨300, 40⟩] 4 false false).boundArg 2 1
        = some (7, 220)
      ∧ (Pipeline.construct [5, 7] [9] [⟨100, 40⟩, ⟨200, 40⟩] [⟨300, 40⟩] 4 false false).boundArg 3 2
        = some (9, 330) := by
  have h := pipeline_construction_spec [5, 7] [9] [⟨100, 40⟩, ⟨200, 40⟩] [⟨300, 40⟩] 4
    false false (by decide) (by decide) (by decide)
  constructor
  · have := h.2.2.2.1 2 (by decide) 1 7 ⟨200, 40⟩ rfl rfl
    simpa using this
  · have := h.2.2.2.2 3 (by decide) 0 9 ⟨300, 40⟩ rfl rfl
    simpa using this

/-- C3: `updateCommandList(newTensorData, argIndex)` patches, in every
command list `i`, only the recorded bindings of argument `argIndex` to
`newTensorData.mem + (i * newTensorData.size) / N`, leaves every other
argument's bindings and the instruction streams unchanged, touches no
event or fence, and leaves every list closed. -/
theorem updateCommandList_frame (p : Pipeline) (tensorsData : TensorData)
    (index : Nat) :
    (p.updateCommandList tensorsData index).command_lists.length = p.command_lists.length
      ∧ (p.updateCommandList tensorsData index).events = p.events
      ∧ (p.updateCommandList tensorsData index).fences = p.fences
      ∧ ∀ i cl, p.command_lists[i]? = some cl →
          ∃ cl2, (p.updateCommandList tensorsData index).command_lists[i]? = some cl2
            ∧ cl2.closed = true
            ∧ cl2.instrs = cl.instrs
            ∧ (∀ (j d a : Nat), cl.bindings[j]? = some (d, a) → d ≠ index →
                cl2.bindings[j]? = some (d, a))
            ∧ (∀ (j a : Nat), cl.bindings[j]? = some (index, a) →
                cl2.bindings[j]? = some (index,
                  tensorsData.mem + (i * tensorsData.size) / p.command_lists.length)) := by
  refine ⟨by simp [Pipeline.updateCommandList, mapWithIndex_length], rfl, rfl, ?_⟩
  intro i cl hcl
  refine ⟨(cl.updateMutableCommandList index
    (sliceAddress p.command_lists.length i tensorsData)).close, ?_, rfl, rfl, ?_, ?_⟩
  · simp [Pipeline.updateCommandList, mapWithIndex_getElem?, hcl]
  · intro j d a hja hne
    simp [CommandList.close, CommandList.updateMutableCommandList,
      List.getElem?_map, hja, hne]
  · intro j a hja
    simp [CommandList.close, CommandList.updateMutableCommandList,
      List.getElem?_map, hja, sliceAddress]

/-- C3 witness: updating argument 7 on a two-list pipeline rebinds it
per slice and leaves argument 5 untouched. -/
theorem updateCommandList_frame_witness :
    ((Pipeline.construct [5, 7] [] [⟨100, 40⟩, ⟨200, 40⟩] [] 2 false false).updateCommandList
        ⟨1000, 80⟩ 7).boundArg 1 1 = some (7, 1040)
      ∧ ((Pipeline.construct [5, 7] [] [⟨100, 40⟩, ⟨200, 40⟩] [] 2 false false).updateCommandList
        ⟨1000, 80⟩ 7).boundArg 1 0 = some (5, 120) := by
  have h := updateCommandList_frame
    (Pipeline.construct [5, 7] [] [⟨100, 40⟩, ⟨200, 40⟩] [] 2 false false) ⟨1000, 80⟩ 7
  obtain ⟨cl2, hcl2, -, -, hframe, hpatch⟩ := h.2.2.2 1
    { bindings := [(5, 120), (7, 220)], instrs := [Instr.graphExecute, Instr.barrier, Instr.signalEvent 1]
      closed := true } (by decide)
  have hb1 : cl2.bindings[1]? = some (7, 1040) := by
    have := hpatch 1 220 (by decide)
    simpa using this
  have hb0 : cl2.bindings[0]? = some (5, 120) := hframe 0 5 120 (by decide) (by decide)
  constructor
  · simp [Pipeline.boundArg, hcl2, hb1]
  · simp [Pipeline.boundArg, hcl2, hb0]

/-- C2: in `compileWS` under split-weights versions 2 and 3, after any
run of init-named segments, collection stops at the first main-named
segment (later compiler output is never consumed), only the first
collected init segment is retained as the init artifact, and a segment
named with neither prefix raises the fatal assertion. -/
theorem compileWS_v23_classification (version : Nat) (zeExt : Bool)
    (realize : List Nat → Except String Nat)
    (pre : List Segment) (s : Segment) (post : List Segment)
    (hv : version = 2 ∨ version = 3)
    (hpre : ∀ t ∈ pre, isInit t.name = true) :
    (isMain s.name = true →
        compileWS version zeExt realize (pre ++ s :: post)
            = compileWS version zeExt realize (pre ++ [s])
          ∧ ∀ i0, pre.head? = some i0 →
              ∃ gInit gMain,
                compileWS version zeExt realize (pre ++ s :: post)
                  = Except.ok (some [gInit, gMain])
                ∧ gInit.name = i0.name ∧ gInit.blob = i0.blob
                ∧ gMain.name = s.name ∧ gMain.blob = s.blob)
      ∧ (isInit s.name = false → isMain s.name = false →
          compileWS version zeExt realize (pre ++ s :: post)
            = Except.error ("Unexpected network name: " ++ s.name)) := by
  rcases hv with hv | hv <;> subst hv
  · constructor
    · intro hm
      constructor
      · simp only [compileWS, collectWS_v2_stops pre hpre s hm post,
          collectWS_v2_stops pre hpre s hm []]
      · intro i0 hi0
        refine ⟨(finishWS zeExt realize i0 s).1, (finishWS zeExt realize i0 s).2, ?_, ?_, ?_, ?_, ?_⟩
        · simp only [compileWS, collectWS_v2_stops pre hpre s hm post, Except.map, hi0]
        · simp [finishWS]
        · simp [finishWS]
        · simp [finishWS]
        · simp [finishWS]
    · intro hs1 hs2
      simp only [compileWS, collectWS_v2_fatal pre hpre s hs1 hs2 post, Except.map]
  · constructor
    · intro hm
      constructor
      · simp only [compileWS, collectWS_v3_stops 0 pre hpre s hm post,
          collectWS_v3_stops 0 pre hpre s hm []]
      · intro i0 hi0
        refine ⟨(finishWS zeExt realize i0 s).1, (finishWS zeExt realize i0 s).2, ?_, ?_, ?_, ?_, ?_⟩
        · simp only [compileWS, collectWS_v3_stops 0 pre hpre s hm post, Except.map, hi0]
        · simp [finishWS]
        · simp [finishWS]
        · simp [finishWS]
        · simp [finishWS]
    · intro hs1 hs2
      simp only [compileWS, collectWS_v3_fatal 0 pre hpre s hs1 hs2 post, Except.map]

/-- C2 witness: with two inits before main, the output ignores the
segment after main, and a foreign name is fatal. -/
theorem compileWS_v23_classification_witness :
    compileWS 2 false (fun _ => Except.error "e")
        [⟨"init0", [1]⟩, ⟨"init1", [2]⟩, ⟨"main", [3]⟩, ⟨"main2", [4]⟩]
      = compileWS 2 false (fun _ => Except.error "e")
        [⟨"init0", [1]⟩, ⟨"init1", [2]⟩, ⟨"main", [3]⟩]
      ∧ compileWS 3 false (fun _ => Except.error "e") [⟨"weird", [9]⟩]
        = Except.error "Unexpected network name: weird" := by
  have h2 := compileWS_v23_classification 2 false (fun _ => Except.error "e")
    [⟨"init0", [1]⟩, ⟨"init1", [2]⟩] ⟨"main", [3]⟩ [⟨"main2", [4]⟩]
    (Or.inl rfl) (by decide)
  have h3 := compileWS_v23_classification 3 false (fun _ => Except.error "e")
    [] ⟨"weird", [9]⟩ [] (Or.inr rfl) (by simp)
  refine ⟨(h2.1 (by decide)).1, ?_⟩
  have := h3.2 (by decide) (by decide)
  simpa using this

/-- C10: in the v2/v3 paths `initDscrs[0]` is taken with no emptiness
check; modelled as an `Option` whose `none` branch marks the
out-of-contract execution, the branch is unreachable whenever the
compiler emits at least one init-named segment before the main-named
one, and is reached when it emits none. -/
theorem compileWS_v23_first_init_safety (version : Nat) (zeExt : Bool)
    (realize : List Nat → Except String Nat)
    (pre : List Segment) (m : Segment) (post : List Segment)
    (hv : version = 2 ∨ version = 3)
    (hpre : ∀ t ∈ pre, isInit t.name = true)
    (hne : pre ≠ [])
    (hm : isMain m.name = true) :
    (∃ gs, compileWS version zeExt realize (pre ++ m :: post) = Except.ok (some gs))
      ∧ compileWS version zeExt realize (m :: post) = Except.ok none := by
  obtain ⟨i0, rest, hcons⟩ : ∃ i0 rest, pre = i0 :: rest := by
    cases pre with
    | nil => exact absurd rfl hne
    | cons a t => exact ⟨a, t, rfl⟩
  rcases hv with hv | hv <;> subst hv
  · constructor
    · subst hcons
      refine ⟨[(finishWS zeExt realize i0 m).1, (finishWS zeExt realize i0 m).2], ?_⟩
      simp only [compileWS, collectWS_v2_stops _ hpre m hm post, Except.map, List.head?]
    · have h0 := collectWS_v2_stops [] (by simp) m hm post
      simp only [List.nil_append] at h0
      simp only [compileWS, h0, Except.map, List.head?]
  · constructor
    · subst hcons
      refine ⟨[(finishWS zeExt realize i0 m).1, (finishWS zeExt realize i0 m).2], ?_⟩
      simp only [compileWS, collectWS_v3_stops 0 _ hpre m hm post, Except.map, List.head?]
    · have h0 := collectWS_v3_stops 0 [] (by simp) m hm post
      simp only [List.nil_append] at h0
      simp only [compileWS, h0, Except.map, List.head?]

/-- C10 witness: one init then main is accepted; main alone reaches the
unchecked-index branch. -/
theorem compileWS_v23_first_init_safety_witness :
    compileWS 2 false (fun _ => Except.error "e") [⟨"init", [1]⟩, ⟨"main", [2]⟩]
        ≠ Except.ok none
      ∧ compileWS 2 false (fun _ => Except.error "e") [⟨"main", [2]⟩]
        = Except.ok none := by
  have h := compileWS_v23_first_init_safety 2 false (fun _ => Except.error "e")
    [⟨"init", [1]⟩] ⟨"main", [2]⟩ [] (Or.inl rfl) (by decide) (by decide) (by decide)
  refine ⟨?_, h.2⟩
  obtain ⟨gs, hgs⟩ := h.1
  simp only [List.cons_append, List.nil_append] at hgs
  rw [hgs]
  simp

/-- C8: `reset()` restores exactly the per-index primitives used for
waiting (fences in fence-sync mode, events otherwise) to the unsignaled
state, reallocating nothing (command lists untouched, fence and event
identities preserved); consequently `reset(); push(); pull()` succeeds
on a constructed pipeline for every number of repetitions, preserving
the command lists and the identities of all events and fences. -/
theorem pipeline_reset_reuse (iD oD : List Nat) (iT oT : List TensorData)
    (n : Nat) (profiling syncFences : Bool) (k : Nat) :
    (∀ p0 : Pipeline,
        p0.reset.command_lists = p0.command_lists
        ∧ p0.reset.fences.map FencePrim.fenceId = p0.fences.map FencePrim.fenceId
        ∧ p0.reset.events.map EventPrim.poolIndex = p0.events.map EventPrim.poolIndex
        ∧ (p0.sync_output_with_fences = true →
            p0.reset.fences.all (fun f => !f.signaled) = true
            ∧ p0.reset.events = p0.events)
        ∧ (p0.sync_output_with_fences = false →
            p0.reset.events.all (fun e => !e.signaled) = true
            ∧ p0.reset.fences = p0.fences))
      ∧ ∃ q, (Pipeline.construct iD oD iT oT n profiling syncFences).cycles k = some q
          ∧ q.command_lists
              = (Pipeline.construct iD oD iT oT n profiling syncFences).command_lists
          ∧ q.events.map EventPrim.poolIndex
              = (Pipeline.construct iD oD iT oT n profiling syncFences).events.map EventPrim.poolIndex
          ∧ q.fences.map FencePrim.fenceId
              = (Pipeline.construct iD oD iT oT n profiling syncFences).fences.map FencePrim.fenceId := by
  constructor
  · intro p0
    by_cases hs : p0.sync_output_with_fences = true
    · refine ⟨by simp [Pipeline.reset, hs], ?_, by simp [Pipeline.reset, hs], ?_, ?_⟩
      · simp [Pipeline.reset, hs, List.map_map, Function.comp_def]
      · intro _
        refine ⟨?_, by simp [Pipeline.reset, hs]⟩
        simp only [Pipeline.reset, hs, if_true, List.all_eq_true, List.mem_map]
        rintro f ⟨f0, -, rfl⟩
        rfl
      · intro hcontra
        rw [hs] at hcontra
        exact absurd hcontra (by simp)
    · have hs2 : p0.sync_output_with_fences = false := by
        cases h : p0.sync_output_with_fences
        · rfl
        · exact absurd h hs
      refine ⟨by simp [Pipeline.reset, hs2], by simp [Pipeline.reset, hs2], ?_, ?_, ?_⟩
      · simp [Pipeline.reset, hs2, List.map_map, Function.comp_def]
      · intro hcontra
        rw [hs2] at hcontra
        exact absurd hcontra (by simp)
      · intro _
        refine ⟨?_, by simp [Pipeline.reset, hs2]⟩
        simp only [Pipeline.reset, hs2, Bool.false_eq_true, if_false, List.all_eq_true,
          List.mem_map]
        rintro e ⟨e0, -, rfl⟩
        rfl
  · cases k with
    | zero => exact ⟨Pipeline.construct iD oD iT oT n profiling syncFences, rfl, rfl, rfl, rfl⟩
    | succ m =>
      refine ⟨(Pipeline.construct iD oD iT oT n profiling syncFences).push, ?_, rfl, ?_, ?_⟩
      · show Pipeline.cycles (m + 1) (Pipeline.construct iD oD iT oT n profiling syncFences) = _
        simp only [Pipeline.cycles, cycle_construct, Option.some_bind]
        exact cycles_fix _ (cycle_push_construct iD oD iT oT n profiling syncFences) m
      · rw [push_construct]
        simp [Pipeline.construct, List.map_map, Function.comp_def]
      · rw [push_construct]
        simp [Pipeline.construct, List.map_map, Function.comp_def]

/-- C8 witness: three full reuse cycles on a concrete two-list pipeline
in each synchronization mode. -/
theorem pipeline_reset_reuse_witness :
    (∃ q, (Pipeline.construct [5] [] [⟨100, 40⟩] [] 2 false false).cycles 3 = some q
        ∧ q.command_lists = (Pipeline.construct [5] [] [⟨100, 40⟩] [] 2 false false).command_lists)
      ∧ (∃ q, (Pipeline.construct [5] [] [⟨100, 40⟩] [] 2 false true).cycles 3 = some q
        ∧ q.command_lists = (Pipeline.construct [5] [] [⟨100, 40⟩] [] 2 false true).command_lists) := by
  have h1 := pipeline_reset_reuse [5] [] [⟨100, 40⟩] [] 2 false false 3
  have h2 := pipeline_reset_reuse [5] [] [⟨100, 40⟩] [] 2 false true 3
  obtain ⟨q1, hq1, hc1, -, -⟩ := h1.2
  obtain ⟨q2, hq2, hc2, -, -⟩ := h2.2
  exact ⟨⟨q1, hq1, hc1⟩, ⟨q2, hq2, hc2⟩⟩

end NPU
